import Mathlib

/-!
Verification development for the ImageStack deconvolution core
(`src/Deconvolution.cpp`).  The C++ code is shallowly embedded: machine
floats are idealised as exact rationals, images are either dimension
records (for shape claims) or total functions on integer coordinates
(for the padding extrapolator), and the external collaborators (DFT,
complex elementwise ops, crop fill policy, luma conversion, file I/O)
are modelled from their interface description in the specification.
-/

namespace ImageStack

/-- Four-dimensional image extent: width, height, frames, channels,
mirroring the `Image`/`Window` shape in the source. -/
structure Dims where
  width : ℕ
  height : ℕ
  frames : ℕ
  channels : ℕ
deriving DecidableEq, Repr

/-- `Deconvolution::applyPadding` margin parameter `alpha`:
`alpha = 1; if (W/3 < alpha) alpha = W/3; if (H/3 < alpha) alpha = H/3`. -/
def alphaOf (w h : ℕ) : ℕ :=
  let a1 := if w / 3 < 1 then w / 3 else 1
  if h / 3 < a1 then h / 3 else a1

/-- `x_padding = W/2; if (x_padding < alpha*3) x_padding = alpha*3`. -/
def xpadOf (w h : ℕ) : ℕ :=
  let xp := w / 2
  if xp < alphaOf w h * 3 then alphaOf w h * 3 else xp

/-- `y_padding = H/2; if (y_padding < alpha*3) y_padding = alpha*3`. -/
def ypadOf (w h : ℕ) : ℕ :=
  let yp := h / 2
  if yp < alphaOf w h * 3 then alphaOf w h * 3 else yp

/-- Shape of the enlarged canvas allocated by `applyPadding`
(`Crop::apply(B, -x_padding, -y_padding, 0, W+2*x_padding, H+2*y_padding, frames)`). -/
def paddingCanvasDims (d : Dims) : Dims :=
  ⟨d.width + 2 * xpadOf d.width d.height, d.height + 2 * ypadOf d.width d.height,
   d.frames, d.channels⟩

/-- Shape returned by `applyPadding`: the canvas cropped at
`(x_padding/2, y_padding/2)` to extent `(W+x_padding, H+y_padding)` with
`B.frames` frames (`Crop::apply(ret, xp/2, yp/2, 0, W+xp, H+yp, B.frames)`). -/
def applyPaddingDims (d : Dims) : Dims :=
  ⟨d.width + xpadOf d.width d.height, d.height + ypadOf d.width d.height,
   d.frames, d.channels⟩

/-- `Transpose::apply(·, 'c', 't')`: swaps the channel and frame extents. -/
def transposeCT (d : Dims) : Dims := ⟨d.width, d.height, d.channels, d.frames⟩

/-- `RealComplex::apply`: re-represents a real image with 2 (re, im) channels. -/
def realComplexDims (d : Dims) : Dims := ⟨d.width, d.height, d.frames, 2⟩

/-- `ComplexReal::apply`: keeps only the real channel. -/
def complexRealDims (d : Dims) : Dims := ⟨d.width, d.height, d.frames, 1⟩

/-- Seven-argument `Crop::apply(im, x0, y0, t0, w, h, f)`: new spatial and
frame extents, channels preserved. -/
def cropDims7 (d : Dims) (w h f : ℕ) : Dims := ⟨w, h, f, d.channels⟩

/-- Five-argument `Crop::apply(im, x0, y0, w, h)`: new spatial extent,
frames and channels preserved. -/
def cropDims5 (d : Dims) (w h : ℕ) : Dims := ⟨w, h, d.frames, d.channels⟩

/-! ## The continuation schedule of `applyShan2008` -/

/-- Initial schedule `(lambda_1, lambda_2, gamma) = (0.1, 15.0, 2.0)`. -/
def scheduleInit : ℚ × ℚ × ℚ := (1/10, 15, 2)

/-- Per-round update `lambda_1 /= 1.2; lambda_2 /= 1.5; gamma *= 2`. -/
def scheduleStep (s : ℚ × ℚ × ℚ) : ℚ × ℚ × ℚ :=
  (s.1 / (6/5), s.2.1 / (3/2), s.2.2 * 2)

/-- Schedule state after `n` completed rounds. -/
def schedule : ℕ → ℚ × ℚ × ℚ
  | 0 => scheduleInit
  | n + 1 => scheduleStep (schedule n)

/-- `const int MAX_ITERATION = 2`. -/
def maxIteration : ℕ := 2

/-! ## The derivative filter banks -/

/-- A sparse spatial stencil: coefficients keyed by `(x, y)` offsets. -/
def Stencil := List ((ℕ × ℕ) × ℚ)

instance : DecidableEq Stencil := by
  unfold Stencil
  infer_instance

/-- The weight and stencil placed for index `i` of the derivative filter
bank built inside `applyShan2008` (lines 99-131 of the source). -/
def shanDerivFilters : Fin 6 → ℚ × Stencil
  | 0 => (50, [((0,0), 1)])
  | 1 => (25, [((0,0), -1), ((1,0), 1)])
  | 2 => (25/2, [((0,0), 1), ((1,0), -2), ((2,0), 1)])
  | 3 => (25, [((0,0), -1), ((0,1), 1)])
  | 4 => (25/2, [((0,0), 1), ((0,1), -2), ((0,2), 1)])
  | 5 => (25/2, [((0,0), 1), ((1,0), -1), ((0,1), -1), ((1,1), 1)])

/-- The weight and stencil placed for index `i` of the derivative filter
bank built inside `applyCho2009` (lines 485-516 of the source). -/
def choDerivFilters : Fin 6 → ℚ × Stencil
  | 0 => (50, [((0,0), 1)])
  | 1 => (25, [((0,0), -1), ((1,0), 1)])
  | 2 => (25/2, [((0,0), 1), ((1,0), -2), ((2,0), 1)])
  | 3 => (25, [((0,0), -1), ((0,1), 1)])
  | 4 => (25/2, [((0,0), 1), ((0,1), -2), ((0,2), 1)])
  | 5 => (25/2, [((0,0), 1), ((1,0), -1), ((0,1), -1), ((1,1), 1)])

/-! ## Complex per-frequency-bin arithmetic of `applyCho2009`

The DFT collaborator is kept abstract: a frequency bin holds the complex
values `F(K)`, `F(deriv_i)` (i = 0..5) and, per channel, `F(B)`.  The
elementwise complex operations are external collaborators and are
modelled from the spec as standard complex arithmetic on (re, im)
pairs of exact rationals. -/

/-- A complex sample: (real, imaginary) pair, as stored in the
2-channel frequency-domain images. -/
def Cplx := ℚ × ℚ

instance : DecidableEq Cplx := by
  unfold Cplx
  infer_instance

/-- Modelled from the spec: elementwise complex multiply
(`ComplexMultiply::apply` with `conj = false`). -/
def cmul (u v : Cplx) : Cplx := (u.1 * v.1 - u.2 * v.2, u.1 * v.2 + u.2 * v.1)

/-- Modelled from the spec: elementwise complex conjugate
(`ComplexConjugate::apply`). -/
def cconj (u : Cplx) : Cplx := (u.1, -u.2)

/-- Modelled from the spec: elementwise complex addition (`Add::apply`). -/
def cadd (u v : Cplx) : Cplx := (u.1 + v.1, u.2 + v.2)

/-- Modelled from the spec: scaling both components (`Scale::apply`,
or `Add::apply` with a weight). -/
def cscale (s : ℚ) (u : Cplx) : Cplx := (s * u.1, s * u.2)

/-- Modelled from the spec: elementwise complex division
(`ComplexDivide::apply` with `conj = false`): multiply by the conjugate
of the denominator over its squared magnitude. -/
def cdiv (u v : Cplx) : Cplx :=
  ((u.1 * v.1 + u.2 * v.2) / (v.1 * v.1 + v.2 * v.2),
   (u.2 * v.1 - u.1 * v.2) / (v.1 * v.1 + v.2 * v.2))

/-- Squared magnitude of a complex sample, as a rational. -/
def normSq (u : Cplx) : ℚ := u.1 * u.1 + u.2 * u.2

/-- A zero-initialised complex accumulator (fresh `Image` channels). -/
def czero : Cplx := (0, 0)

/-- The weight `w_i` of derivative filter `i` (shared switch tables). -/
def choW (i : Fin 6) : ℚ := (choDerivFilters i).1

/-- `float alpha = 1.f` in `applyCho2009`. -/
def choAlpha : ℚ := 1

/-- The `SumDeriv` accumulator per bin: for each `i`,
`FDeriv2 = FDeriv * conj(FDeriv)` scaled by `w_i` and added. -/
def choSumDeriv (fd : Fin 6 → Cplx) : Cplx :=
  (List.finRange 6).foldl
    (fun acc i => cadd acc (cscale (choW i) (cmul (fd i) (cconj (fd i))))) czero

/-- The `SumGrad` accumulator per bin: `|F(dx)|^2 + |F(dy)|^2` summed
unscaled for `i = 1, 3`, then `Scale::apply(SumGrad, alpha)`. -/
def choSumGrad (fd : Fin 6 → Cplx) : Cplx :=
  cscale choAlpha
    (cadd (cadd czero (cmul (fd 1) (cconj (fd 1)))) (cmul (fd 3) (cconj (fd 3))))

/-- The channel-independent factor computed in `FK`:
`conj(F(K)) * SumDeriv / (|F(K)|^2 * SumDeriv + SumGrad)`
(`ComplexConjugate`, two `ComplexMultiply`, `Add`, `ComplexDivide`). -/
def choKernelFactor (fk : Cplx) (fd : Fin 6 → Cplx) : Cplx :=
  let fk2 := cmul fk (cconj fk)
  let sd := choSumDeriv fd
  cdiv (cmul (cconj fk) sd) (cadd (cmul fk2 sd) (choSumGrad fd))

/-- One frequency bin of one channel of `applyCho2009`: the final
per-channel loop `FB(x,y,t) * FK(x,y)` written out componentwise in the
source. -/
def applyCho2009Bin (fk : Cplx) (fd : Fin 6 → Cplx) (fb : Cplx) : Cplx :=
  (fb.1 * (choKernelFactor fk fd).1 - fb.2 * (choKernelFactor fk fd).2,
   fb.1 * (choKernelFactor fk fd).2 + fb.2 * (choKernelFactor fk fd).1)

/-- The closed-form solution exactly as the specification states it:
`F(L) = F(K)^T * F(B) * sum w_i |F(deriv_i)|^2` divided by
`(|F(K)|^2 * sum w_i |F(deriv_i)|^2 + alpha * (|F(dx)|^2 + |F(dy)|^2))`
with `alpha = 1`, the magnitudes taken as real scalars. -/
def choBinSpecFormula (fk : Cplx) (fd : Fin 6 → Cplx) (fb : Cplx) : Cplx :=
  let sw : ℚ := ∑ i : Fin 6, choW i * normSq (fd i)
  cdiv (cscale sw (cmul (cconj fk) fb))
    (normSq fk * sw + 1 * (normSq (fd 1) + normSq (fd 3)), 0)

/-! ## Pixel-level model of `applyPadding`

`applyPadding` processes frames independently and every arithmetic step
acts per channel, so a single-frame single-channel slice, modelled as a
total function on integer coordinates, captures the data flow.  The
sequential `for` loops become `loopS` folds; `memcpy` row copies,
pointwise writes and the streaming one-dimensional blurs (which carry
the previous original sample in `prev`) are transcribed directly. -/

/-- A raster slice: sample value at integer coordinates `(x, y)`. -/
def Grid : Type := ℤ → ℤ → ℚ

/-- Pointwise store `ret(x, y) = v`. -/
def upd (g : Grid) (x y : ℤ) (v : ℚ) : Grid :=
  fun p q => if p = x ∧ q = y then v else g p q

/-- `memcpy` of `len` contiguous samples of row `srcY` starting at
column `srcX` onto row `dstY` starting at column `dstX`. -/
def copyRow (g : Grid) (dstX dstY srcX srcY : ℤ) (len : ℕ) : Grid :=
  fun p q =>
    if q = dstY ∧ dstX ≤ p ∧ p < dstX + len then g (srcX + (p - dstX)) srcY
    else g p q

/-- A `for (i = 0; i < n; i++)` loop over state `σ`. -/
def loopS {σ : Type} : ℕ → (ℕ → σ → σ) → σ → σ
  | 0, _, s => s
  | n + 1, body, s => body n (loopS n body s)

/-- Body of the top-mirror loop (`y < alpha`): copy row
`y - alpha + H + y_padding` onto row `y`, then row `y + y_padding` onto
row `y_padding - alpha + y`, over columns `[x_padding, x_padding+W)`. -/
def padTopBody (W H : ℕ) (y : ℕ) (g : Grid) : Grid :=
  let a := alphaOf W H
  let xp := xpadOf W H
  let yp := ypadOf W H
  copyRow (copyRow g (xp : ℤ) (y : ℤ) (xp : ℤ) ((y : ℤ) - a + H + yp) W)
    (xp : ℤ) ((yp : ℤ) - a + y) (xp : ℤ) ((y : ℤ) + yp) W

/-- The top-mirror loop. -/
def padTop (W H : ℕ) (g : Grid) : Grid := loopS (alphaOf W H) (padTopBody W H) g

/-- One step of the streaming row blur
`ret(x,y) = prev*wing + ret(x+1,y)*wing + ret(x,y)*center`, carried
state `(ret, prev)`. -/
def blurRowBody (wing center : ℚ) (y : ℤ) (xp : ℕ) (j : ℕ)
    (st : Grid × ℚ) : Grid × ℚ :=
  let x : ℤ := (xp : ℤ) + j
  let cur := st.1 x y
  (upd st.1 x y (st.2 * wing + st.1 (x + 1) y * wing + cur * center), cur)

/-- The row blur over columns `[x_padding, x_padding + W - 1)`, with
`prev` initialised to `ret(x_padding, y)`. -/
def blurRow (wing center : ℚ) (y : ℤ) (xp W : ℕ) (g : Grid) : Grid :=
  (loopS (W - 1) (blurRowBody wing center y xp) (g, g (xp : ℤ) y)).1

/-- Row `alpha + i` of the vertical margin fill: linear interpolation
from the row above toward row `y_padding - alpha` with weight
`1/(y_padding - alpha - (y-1))`. -/
def fillRowInterp (W H : ℕ) (i : ℕ) (g : Grid) : Grid :=
  let a := alphaOf W H
  let xp := xpadOf W H
  let yp := ypadOf W H
  let y : ℤ := (a : ℤ) + i
  let wt : ℚ := 1 / ((yp : ℚ) - (a : ℚ) - (((a : ℚ) + (i : ℚ)) - 1))
  fun p q =>
    if q = y ∧ (xp : ℤ) ≤ p ∧ p < (xp : ℤ) + W then
      g p (y - 1) * (1 - wt) + g p ((yp : ℤ) - (a : ℤ)) * wt
    else g p q

/-- Body of the vertical margin-fill loop (`y` from `alpha` to
`y_padding - alpha`): interpolate the row, then blur it with
`wing = 0.1 + 0.2*(1 - |y_padding*0.5 - y| / (y_padding*0.5))`. -/
def padRowFillBody (W H : ℕ) (i : ℕ) (g : Grid) : Grid :=
  let a := alphaOf W H
  let xp := xpadOf W H
  let yp := ypadOf W H
  let wing : ℚ :=
    1/10 + 2/10 * (1 - |(yp : ℚ) * (1/2) - ((a : ℚ) + (i : ℚ))| / ((yp : ℚ) * (1/2)))
  blurRow wing (1 - wing * 2) ((a : ℤ) + i) xp W (fillRowInterp W H i g)

/-- The vertical margin-fill loop. -/
def padRowFill (W H : ℕ) (g : Grid) : Grid :=
  loopS (ypadOf W H - alphaOf W H - alphaOf W H) (padRowFillBody W H) g

/-- One `(y2, x)` step of the left mirror region: copy column
`W + x_padding - alpha + x` to column `x`, then column `x_padding + x`
to column `x_padding - alpha + x`, at row `y2`. -/
def padLeftBody (W a xp : ℕ) (y2 : ℤ) (xi : ℕ) (g : Grid) : Grid :=
  let g1 := upd g (xi : ℤ) y2 (g ((W : ℤ) + xp - a + xi) y2)
  upd g1 ((xp : ℤ) - a + xi) y2 (g1 ((xp : ℤ) + xi) y2)

/-- The left mirror region over all rows of the canvas. -/
def padLeft (W H : ℕ) (g : Grid) : Grid :=
  loopS (H + 2 * ypadOf W H)
    (fun y2 g => loopS (alphaOf W H) (padLeftBody W (alphaOf W H) (xpadOf W H) (y2 : ℤ)) g) g

/-- Column `alpha + i` of the horizontal margin fill: linear
interpolation from the column on the left toward column
`x_padding - alpha`. -/
def fillColInterp (W H : ℕ) (i : ℕ) (g : Grid) : Grid :=
  let a := alphaOf W H
  let xp := xpadOf W H
  let yp := ypadOf W H
  let x : ℤ := (a : ℤ) + i
  let wt : ℚ := 1 / ((xp : ℚ) - (a : ℚ) - (((a : ℚ) + (i : ℚ)) - 1))
  fun p q =>
    if p = x ∧ 0 ≤ q ∧ q < (H : ℤ) + 2 * (yp : ℤ) then
      g (x - 1) q * (1 - wt) + g ((xp : ℤ) - (a : ℤ)) q * wt
    else g p q

/-- One step of the streaming column blur, carried state `(ret, prev)`. -/
def blurColBody (wing center : ℚ) (x : ℤ) (j : ℕ) (st : Grid × ℚ) : Grid × ℚ :=
  let y : ℤ := (j : ℤ)
  let cur := st.1 x y
  (upd st.1 x y (st.2 * wing + st.1 x (y + 1) * wing + cur * center), cur)

/-- The column blur over rows `[0, n)` with `prev = ret(x, 0)`. -/
def blurCol (wing center : ℚ) (x : ℤ) (n : ℕ) (g : Grid) : Grid :=
  (loopS n (blurColBody wing center x) (g, g x 0)).1

/-- Body of the horizontal margin-fill loop. -/
def padColFillBody (W H : ℕ) (i : ℕ) (g : Grid) : Grid :=
  let a := alphaOf W H
  let xp := xpadOf W H
  let yp := ypadOf W H
  let wing : ℚ :=
    1/10 + 2/10 * (1 - |(xp : ℚ) * (1/2) - ((a : ℚ) + (i : ℚ))| / ((xp : ℚ) * (1/2)))
  blurCol wing (1 - wing * 2) ((a : ℤ) + i) (H + 2 * yp - 1) (fillColInterp W H i g)

/-- The right mirror region: per row, `memcpy` columns `[0, x_padding)`
onto `[W + x_padding, W + 2*x_padding)`. -/
def padRight (W H : ℕ) (g : Grid) : Grid :=
  loopS (H + 2 * ypadOf W H)
    (fun y2 g => copyRow g ((W : ℤ) + xpadOf W H) (y2 : ℤ) 0 (y2 : ℤ) (xpadOf W H)) g

/-- Body of the bottom loop (`y < y_padding`).  In the source the left
region, the horizontal fill and the right region are nested inside this
loop (the closing brace of the bottom `for` is at line 444), so all
three run once per bottom row; the transcription keeps that nesting. -/
def padBottomBody (W H : ℕ) (yb : ℕ) (g : Grid) : Grid :=
  let a := alphaOf W H
  let xp := xpadOf W H
  let yp := ypadOf W H
  let g1 := copyRow g (xp : ℤ) ((yb : ℤ) + H + yp) (xp : ℤ) (yb : ℤ) W
  let g2 := padLeft W H g1
  let g3 := loopS (xp - a - a) (padColFillBody W H) g2
  padRight W H g3

/-- The bottom-and-sides pass. -/
def padBottomAndSides (W H : ℕ) (g : Grid) : Grid :=
  loopS (ypadOf W H) (padBottomBody W H) g

/-- Modelled from the spec: the initial enlarged canvas
`Crop::apply(B, -x_padding, -y_padding, 0, W+2*x_padding, H+2*y_padding,
frames)`.  `Crop` is an external collaborator; its out-of-range fill
policy is abstracted as an arbitrary `oob` function, while in-range
samples are the embedded original. -/
def padInit (W H : ℕ) (B oob : Grid) : Grid :=
  fun p q =>
    if 0 ≤ p - (xpadOf W H : ℤ) ∧ p - (xpadOf W H : ℤ) < (W : ℤ) ∧
        0 ≤ q - (ypadOf W H : ℤ) ∧ q - (ypadOf W H : ℤ) < (H : ℤ) then
      B (p - (xpadOf W H : ℤ)) (q - (ypadOf W H : ℤ))
    else oob p q

/-- The fully written canvas of `applyPadding`, before the final crop. -/
def applyPaddingGrid (W H : ℕ) (B oob : Grid) : Grid :=
  padBottomAndSides W H (padRowFill W H (padTop W H (padInit W H B oob)))

/-- The image returned by `applyPadding`: the canvas cropped at
`(x_padding/2, y_padding/2)`. -/
def applyPaddingResult (W H : ℕ) (B oob : Grid) : Grid :=
  fun p q =>
    applyPaddingGrid W H B oob (p + ((xpadOf W H / 2 : ℕ) : ℤ))
      (q + ((ypadOf W H / 2 : ℕ) : ℤ))

/-- Cropping the padded result back to the original image's offset
(`x_padding - x_padding/2`, `y_padding - y_padding/2`) and extent. -/
def paddingRoundTrip (W H : ℕ) (B oob : Grid) : Grid :=
  fun p q =>
    applyPaddingResult W H B oob
      (p + ((xpadOf W H - xpadOf W H / 2 : ℕ) : ℤ))
      (q + ((ypadOf W H - ypadOf W H / 2 : ℕ) : ℤ))

/-! ## The per-pixel Psi update of `applyShan2008`

For one pixel the update reads `dLdx`, `dIdx` and the smoothness-map
value and scans six candidates in source order, keeping the first
strictly-lower score (`if (cond && (!fscore_valid || fscore > tmpscore))`).
The x and y passes are textually identical up to renaming `dLdx/dIdx`
to `dLdy/dIdy`, so a single function models both. -/

/-- One candidate of the per-pixel Psi scan: its feasibility test, the
value stored into `ans` when it wins, and its `tmpscore`. -/
structure PsiCand where
  feasible : Bool
  value : ℚ
  score : ℚ
deriving DecidableEq

/-- `k = 2.7f` adjusted by `k *= 255.f`. -/
def psiK : ℚ := (27/10) * 255

/-- `a = 0.00061f` adjusted by `a *= 255.f * 255.f`. -/
def psiA : ℚ := (61/100000) * (255 * 255)

/-- `b = 5.0f`. -/
def psiB : ℚ := 5

/-- `lt = 1.85263f` adjusted by `lt /= 255.f`. -/
def psiLt : ℚ := (185263/100000) / 255

/-- The six candidates evaluated at one pixel, in source order:
quadratic-branch point (feasible when `fabs(tmp) > lt`), positive and
negative linear-branch points (feasible when `tmp ∈ [0, lt]`), then the
always-feasible `0`, `lt`, `-lt`. -/
def psiCandidates (g l1 l2 k a b lt dL dI m : ℚ) : List PsiCand :=
  let t1 := (g * dL + l2 * dI * m) / (g + l2 - a * l1)
  let s1 := g * (t1 - dL) * (t1 - dL) + l2 * (t1 - dI) * (t1 - dI) * m
    + l1 * (-(a * t1 * t1 + b))
  let t2 := (g * dL + l2 * dI * m + l1 * k) / (g + l2)
  let s2 := g * (t2 - dL) * (t2 - dL) + l2 * (t2 - dI) * (t2 - dI) * m
    + l1 * (-k * t2)
  let t3 := (g * dL + l2 * dI * m - l1 * k) / (g + l2)
  let s3 := g * (t3 - dL) * (t3 - dL) + l2 * (t3 - dI) * (t3 - dI) * m
    + l1 * (k * t3)
  let s4 := g * (0 - dL) * (0 - dL) + l2 * (0 - dI) * (0 - dI) * m
  let s5 := g * (lt - dL) * (lt - dL) + l2 * (lt - dI) * (lt - dI) * m
    - l1 * (-k * lt)
  let s6 := g * (-lt - dL) * (-lt - dL) + l2 * (-lt - dI) * (-lt - dI) * m
    - l1 * (k * lt)
  [⟨decide (lt < |t1|), t1, s1⟩,
   ⟨decide (0 ≤ t2 ∧ t2 ≤ lt), t2, s2⟩,
   ⟨decide (0 ≤ t3 ∧ t3 ≤ lt), t3, s3⟩,
   ⟨true, 0, s4⟩,
   ⟨true, lt, s5⟩,
   ⟨true, -lt, s6⟩]

/-- One step of the arg-min scan: state is `(fscore_valid, fscore, ans)`
and a candidate replaces it only when feasible and strictly better
(`!fscore_valid || fscore > tmpscore`). -/
def psiStep (st : Bool × ℚ × ℚ) (c : PsiCand) : Bool × ℚ × ℚ :=
  if c.feasible && (!st.1 || decide (c.score < st.2.1)) then
    (true, c.score, c.value)
  else st

/-- The Psi value stored for one pixel (`Psi_x(x, y)[0] = ans_x`, and
identically for the y field). -/
def psiSelect (g l1 l2 k a b lt dL dI m : ℚ) : ℚ :=
  ((psiCandidates g l1 l2 k a b lt dL dI m).foldl psiStep (false, 0, 0)).2.2

/-! ## Shape-and-checkpoint models of the two solver entry points

Each solver is modelled at the level of validation, checkpoint writes
and shapes: the `assert` calls at the top of each function become
`Except.error`, and a successful run records the list of checkpoint
files written (`FileTMP::save` calls reached) together with the shape
of the returned image. -/

/-- `Deconvolution::applyShan2008`, shape level.  Asserts channel/frame
constraints first, then oddness; on success luma-converts a 3-channel
input (`ColorConvert::apply(B, "rgb", "y")`, modelled from the spec:
single-channel luma conversion is an external collaborator), pads,
iterates writing `output01.tmp`, `output02.tmp`, and crops the
single-channel `L` back to the blurred extent with the 5-argument
`Crop`. -/
def shanRun (B K : Dims) : Except String (List String × Dims) :=
  if ¬(K.channels = 1 ∧ K.frames = 1 ∧ B.frames = 1) then
    .error "The kernel must be single-channel, and both the kernel and blurred image must be single-framed."
  else if ¬(K.width % 2 = 1 ∧ K.height % 2 = 1) then
    .error "The kernel dimensions must be odd."
  else
    let bgray : Dims := if B.channels = 3 then ⟨B.width, B.height, B.frames, 1⟩ else B
    let blarge := applyPaddingDims bgray
    let numerator : Dims := ⟨blarge.width, blarge.height, 1, 2⟩
    let l := complexRealDims numerator
    .ok (["output01.tmp", "output02.tmp"], cropDims5 l B.width B.height)

/-- `Deconvolution::applyCho2009`, shape level.  Asserts oddness first,
then channel/frame constraints; on success pads, writes `padded.tmp`,
works on `RealComplex(Transpose(B,'c','t'))` and returns
`Crop(Transpose(ComplexReal(FB),'c','t'), xp, yp, 0, W, H, F)`. -/
def choRun (B K : Dims) : Except String (List String × Dims) :=
  if ¬(K.width % 2 = 1 ∧ K.height % 2 = 1) then
    .error "The kernel dimensions must be odd."
  else if ¬(K.channels = 1 ∧ K.frames = 1 ∧ B.frames = 1) then
    .error "The kernel must be single-channel, and both the kernel and blurred image must be single-framed."
  else
    let b := applyPaddingDims B
    let fb := realComplexDims (transposeCT b)
    let out := transposeCT (complexRealDims fb)
    .ok (["padded.tmp"], cropDims7 out B.width B.height B.frames)

/-- Checkpoint files actually produced by a `applyShan2008` call. -/
def shanWrites (B K : Dims) : List String :=
  match shanRun B K with
  | .error _ => []
  | .ok (ws, _) => ws

/-- Checkpoint files actually produced by a `applyCho2009` call. -/
def choWrites (B K : Dims) : List String :=
  match choRun B K with
  | .error _ => []
  | .ok (ws, _) => ws

end ImageStack

namespace ImageStack

/-! ## Claim theorems (first batch) -/

/-- C6: the iterative solver's continuation schedule starts at
`(0.1, 15, 2)`, runs exactly 2 rounds, updates by `(/1.2, /1.5, *2)`
after each round, is strictly monotone in each component, and the
post-round values agree with 0.0833, 0.0694 / 10.0, 6.67 / 4.0, 8.0
within floating tolerance. -/
theorem shan_schedule_monotone :
    maxIteration = 2 ∧
    schedule 0 = (1/10, 15, 2) ∧
    schedule 1 = (1/12, 10, 4) ∧
    schedule 2 = (5/72, 20/3, 8) ∧
    (schedule 1).1 < (schedule 0).1 ∧ (schedule 2).1 < (schedule 1).1 ∧
    (schedule 1).2.1 < (schedule 0).2.1 ∧ (schedule 2).2.1 < (schedule 1).2.1 ∧
    (schedule 0).2.2 < (schedule 1).2.2 ∧ (schedule 1).2.2 < (schedule 2).2.2 ∧
    |(schedule 1).1 - 833/10000| < 1/1000 ∧
    |(schedule 2).1 - 694/10000| < 1/1000 ∧
    |(schedule 1).2.1 - 10| < 1/1000 ∧
    |(schedule 2).2.1 - 667/100| < 1/100 ∧
    (schedule 1).2.2 = 4 ∧ (schedule 2).2.2 = 8 := by
  norm_num [schedule, scheduleInit, scheduleStep, maxIteration, abs_lt]

lemma alphaOf_eq_min (w h : ℕ) : alphaOf w h = min (min (w / 3) (h / 3)) 1 := by
  show (if h / 3 < (if w / 3 < 1 then w / 3 else 1) then h / 3
        else (if w / 3 < 1 then w / 3 else 1)) = _
  split_ifs <;> omega

lemma xpadOf_eq_max (w h : ℕ) : xpadOf w h = max (w / 2) (3 * alphaOf w h) := by
  show (if w / 2 < alphaOf w h * 3 then alphaOf w h * 3 else w / 2) = _
  split_ifs <;> omega

lemma ypadOf_eq_max (w h : ℕ) : ypadOf w h = max (h / 2) (3 * alphaOf w h) := by
  show (if h / 2 < alphaOf w h * 3 then alphaOf w h * 3 else h / 2) = _
  split_ifs <;> omega

/-- C9: the two solvers build identical derivative filter banks: the same
six stencils with the same coefficients at the same offsets, paired with
the same weights `(50, 25, 12.5, 25, 12.5, 12.5)`. -/
theorem filter_banks_equal : shanDerivFilters = choDerivFilters := by
  funext i
  fin_cases i <;> rfl

/-- C8: `applyPadding` returns an image of exactly
`(W + x_pad) × (H + y_pad)` where `x_pad = max(W/2, 3*alpha)`,
`y_pad = max(H/2, 3*alpha)`, `alpha = min(W/3, H/3, 1)` (integer
division); it allocates a canvas enlarged by the full margin on each
side and trims half the margin (`x_pad/2`, `y_pad/2`) from each side,
preserving the frame count. -/
theorem applyPadding_dims (d : Dims) :
    applyPaddingDims d =
      ⟨d.width + max (d.width / 2) (3 * alphaOf d.width d.height),
       d.height + max (d.height / 2) (3 * alphaOf d.width d.height),
       d.frames, d.channels⟩ ∧
    alphaOf d.width d.height = min (min (d.width / 3) (d.height / 3)) 1 ∧
    paddingCanvasDims d =
      ⟨d.width + 2 * xpadOf d.width d.height,
       d.height + 2 * ypadOf d.width d.height, d.frames, d.channels⟩ ∧
    (applyPaddingDims d).width + xpadOf d.width d.height / 2 +
        (xpadOf d.width d.height - xpadOf d.width d.height / 2) =
      (paddingCanvasDims d).width ∧
    (applyPaddingDims d).frames = d.frames := by
  refine ⟨?_, alphaOf_eq_min _ _, rfl, ?_, rfl⟩
  · rw [applyPaddingDims, xpadOf_eq_max, ypadOf_eq_max]
  · show d.width + xpadOf d.width d.height + xpadOf d.width d.height / 2 +
        (xpadOf d.width d.height - xpadOf d.width d.height / 2) =
      d.width + 2 * xpadOf d.width d.height
    omega

/-- C4: both solvers reject a kernel with an even width or height, a
kernel with more than one channel or frame, or a blurred image with more
than one frame; the rejection happens before any checkpoint write, so no
checkpoint file (`padded.tmp` or `output<NN>.tmp`) is produced and no
result is computed. -/
theorem solvers_reject_invalid_shapes (B K : Dims)
    (h : K.width % 2 = 0 ∨ K.height % 2 = 0 ∨ 1 < K.channels ∨ 1 < K.frames ∨
      1 < B.frames) :
    (choRun B K).toOption = none ∧ choWrites B K = [] ∧
    (shanRun B K).toOption = none ∧ shanWrites B K = [] := by
  unfold choWrites shanWrites choRun shanRun
  by_cases hodd : K.width % 2 = 1 ∧ K.height % 2 = 1
  · have hch : ¬(K.channels = 1 ∧ K.frames = 1 ∧ B.frames = 1) := by omega
    rw [if_neg (not_not_intro hodd), if_pos hch, if_pos hch]
    exact ⟨rfl, rfl, rfl, rfl⟩
  · rw [if_pos hodd]
    by_cases hch : K.channels = 1 ∧ K.frames = 1 ∧ B.frames = 1
    · rw [if_neg (not_not_intro hch), if_pos hodd]
      exact ⟨rfl, rfl, rfl, rfl⟩
    · rw [if_pos hch]
      exact ⟨rfl, rfl, rfl, rfl⟩

/-- Witness for C4 at a concrete even-width kernel. -/
theorem solvers_reject_invalid_shapes_witness :
    ((2 : ℕ) % 2 = 0 ∨ (3 : ℕ) % 2 = 0 ∨ 1 < 1 ∨ 1 < 1 ∨ 1 < 1) ∧
    ((choRun ⟨4, 4, 1, 1⟩ ⟨2, 3, 1, 1⟩).toOption = none ∧
      choWrites ⟨4, 4, 1, 1⟩ ⟨2, 3, 1, 1⟩ = [] ∧
      (shanRun ⟨4, 4, 1, 1⟩ ⟨2, 3, 1, 1⟩).toOption = none ∧
      shanWrites ⟨4, 4, 1, 1⟩ ⟨2, 3, 1, 1⟩ = []) :=
  ⟨Or.inl rfl, solvers_reject_invalid_shapes ⟨4, 4, 1, 1⟩ ⟨2, 3, 1, 1⟩ (Or.inl rfl)⟩

/-- C5: for every valid input, the image returned by `applyCho2009` has
exactly the blurred image's width, height, frame count and channel
count. -/
theorem cho_output_dims (B K : Dims) (h1 : K.width % 2 = 1)
    (h2 : K.height % 2 = 1) (h3 : K.channels = 1) (h4 : K.frames = 1)
    (h5 : B.frames = 1) :
    (choRun B K).toOption.map Prod.snd = some B := by
  unfold choRun
  rw [if_neg (by simp [h1, h2]), if_neg (by simp [h3, h4, h5])]
  cases B
  rfl

/-- Witness for C5 at a concrete 3-channel blurred image and 3×3 kernel. -/
theorem cho_output_dims_witness :
    (3 : ℕ) % 2 = 1 ∧
    (choRun ⟨5, 7, 1, 3⟩ ⟨3, 3, 1, 1⟩).toOption.map Prod.snd = some ⟨5, 7, 1, 3⟩ :=
  ⟨rfl, cho_output_dims ⟨5, 7, 1, 3⟩ ⟨3, 3, 1, 1⟩ rfl rfl rfl rfl rfl⟩

/-- C10: on a valid 3-channel blurred input, `applyShan2008` returns an
image with exactly one channel (the deconvolved luma): the input is
luma-converted before padding and the final 5-argument crop keeps the
single-channel shape — unlike `applyCho2009`, which preserves the three
channels. -/
theorem shan_output_single_channel (w h kw kh : ℕ) (h1 : kw % 2 = 1)
    (h2 : kh % 2 = 1) :
    (shanRun ⟨w, h, 1, 3⟩ ⟨kw, kh, 1, 1⟩).toOption.map Prod.snd =
      some ⟨w, h, 1, 1⟩ ∧
    (shanRun ⟨w, h, 1, 3⟩ ⟨kw, kh, 1, 1⟩).toOption.map (fun r => r.2.channels) =
      some 1 ∧
    (choRun ⟨w, h, 1, 3⟩ ⟨kw, kh, 1, 1⟩).toOption.map (fun r => r.2.channels) =
      some 3 ∧
    (1 : ℕ) ≠ 3 := by
  have hs : shanRun ⟨w, h, 1, 3⟩ ⟨kw, kh, 1, 1⟩ =
      .ok (["output01.tmp", "output02.tmp"], ⟨w, h, 1, 1⟩) := by
    unfold shanRun
    rw [if_neg (not_not_intro ⟨rfl, rfl, rfl⟩), if_neg (not_not_intro ⟨h1, h2⟩)]
    rfl
  have hc : choRun ⟨w, h, 1, 3⟩ ⟨kw, kh, 1, 1⟩ =
      .ok (["padded.tmp"], ⟨w, h, 1, 3⟩) := by
    unfold choRun
    rw [if_neg (not_not_intro ⟨h1, h2⟩), if_neg (not_not_intro ⟨rfl, rfl, rfl⟩)]
    rfl
  rw [hs, hc]
  exact ⟨rfl, rfl, rfl, by omega⟩

lemma finRange_six : List.finRange 6 = [0, 1, 2, 3, 4, 5] := by decide

lemma choSumDeriv_eq (fd : Fin 6 → Cplx) :
    choSumDeriv fd = (∑ i : Fin 6, choW i * normSq (fd i), 0) := by
  rw [choSumDeriv, finRange_six]
  simp only [List.foldl, Fin.sum_univ_six, cadd, cscale, cmul, cconj, czero,
    normSq]
  refine Prod.ext ?_ ?_ <;> dsimp only <;> ring

lemma choSumGrad_eq (fd : Fin 6 → Cplx) :
    choSumGrad fd = (normSq (fd 1) + normSq (fd 3), 0) := by
  simp only [choSumGrad, choAlpha, cadd, cscale, cmul, cconj, czero, normSq]
  refine Prod.ext ?_ ?_ <;> dsimp only <;> ring

/-- C1: per frequency bin, `applyCho2009` computes exactly the spec's
closed form `F(K)^T F(B) Σ w_i |F(deriv_i)|^2 / (|F(K)|^2 Σ w_i
|F(deriv_i)|^2 + α (|F(dx)|^2 + |F(dy)|^2))` with fixed `α = 1`; the
kernel-dependent factor is a single value broadcast to every channel,
with only `F(B)` varying per channel. -/
theorem cho_closed_form_bin (fk : Cplx) (fd : Fin 6 → Cplx) (fb : ℕ → Cplx)
    (c : ℕ) :
    applyCho2009Bin fk fd (fb c) = choBinSpecFormula fk fd (fb c) ∧
    applyCho2009Bin fk fd (fb c) = cmul (fb c) (choKernelFactor fk fd) ∧
    choAlpha = 1 := by
  refine ⟨?_, rfl, rfl⟩
  obtain ⟨p, q⟩ := fk
  obtain ⟨r, s⟩ := fb c
  simp only [applyCho2009Bin, choBinSpecFormula, choKernelFactor,
    choSumDeriv_eq, choSumGrad_eq, cdiv, cadd, cscale, cmul, cconj, normSq]
  refine Prod.ext ?_ ?_ <;> dsimp only <;> ring

/-- C2 counterexample: at a pixel with `dLdx = dIdx = 0` and smoothness
value 0, under the first round's schedule `(γ, λ1, λ2) = (2, 0.1, 15)`
the selected Psi value is not 0 (it is `-lt`): the claim that the zero
candidate wins is false on the code. -/
theorem shan_psi_zero_pixel_not_zero :
    psiSelect 2 (1/10) 15 psiK psiA psiB psiLt 0 0 0 ≠ 0 := by
  norm_num [psiSelect, psiCandidates, psiStep, psiK, psiA, psiB, psiLt]

/-- C2 amended: at a pixel with `dLdx = dIdx = 0` and smoothness value
0, under either round's schedule parameters the scan selects the `-lt`
candidate, not 0: the `-lt` candidate's score `γ·lt² - λ1·k·lt` is
strictly negative and beats the zero candidate's score 0, while the
`+lt` candidate's score is strictly positive; ties are still broken by
evaluation order with the first strictly-lower score winning. -/
theorem shan_psi_zero_pixel_selects_neg_lt :
    psiSelect 2 (1/10) 15 psiK psiA psiB psiLt 0 0 0 = -psiLt ∧
    psiSelect 4 (1/12) 10 psiK psiA psiB psiLt 0 0 0 = -psiLt ∧
    ((psiCandidates 2 (1/10) 15 psiK psiA psiB psiLt 0 0 0).getD 5
      ⟨false, 0, 0⟩).score < 0 ∧
    ((psiCandidates 2 (1/10) 15 psiK psiA psiB psiLt 0 0 0).getD 3
      ⟨false, 0, 0⟩).score = 0 ∧
    0 < ((psiCandidates 2 (1/10) 15 psiK psiA psiB psiLt 0 0 0).getD 4
      ⟨false, 0, 0⟩).score ∧
    -psiLt ≠ 0 := by
  norm_num [psiSelect, psiCandidates, psiStep, List.getD, psiK, psiA, psiB,
    psiLt]

/-- C3 counterexample: with round-1 parameters, (i) at `dLdx = dIdx =
smoothness = 0` the third candidate's value fails the negative-linear
branch's stationarity equation `2γ(ψ - dLdx) + 2λ2(ψ - dIdx)·mask +
λ1·k = 0` stated in the source comment, so it is not the stationary
point of that branch; and (ii) at a pixel input where the third
candidate wins the scan, the stored Psi value is the candidate value
itself (here `lt/2 > 0`), not its negation. -/
theorem shan_psi_candidate3_counterexample :
    2 * 2 * (((psiCandidates 2 (1/10) 15 psiK psiA psiB psiLt 0 0 0).getD 2
        ⟨false, 0, 0⟩).value - 0)
      + 2 * 15 * (((psiCandidates 2 (1/10) 15 psiK psiA psiB psiLt 0 0 0).getD 2
        ⟨false, 0, 0⟩).value - 0) * 0
      + (1/10) * psiK ≠ 0 ∧
    psiSelect 2 (1/10) 15 psiK psiA psiB psiLt
      ((17 * (psiLt/2) + (1/10) * psiK) / 2) 0 500 = psiLt / 2 ∧
    ((psiCandidates 2 (1/10) 15 psiK psiA psiB psiLt
      ((17 * (psiLt/2) + (1/10) * psiK) / 2) 0 500).getD 2
        ⟨false, 0, 0⟩).value = psiLt / 2 ∧
    psiLt / 2 ≠ -(psiLt / 2) := by
  norm_num [psiSelect, psiCandidates, psiStep, List.getD, psiK, psiA, psiB,
    psiLt, abs_of_pos]

/-- C3 amended: the third candidate's value is
`(γ·dLdx + λ2·dIdx·mask - λ1·k)/(γ + λ2)` (the source comment's
rearrangement for the negative-linear branch, though not the exact
stationary point of the scored branch objective); it is feasible exactly
when that value falls in `[0, lt]`; and when selected the stored Psi
value is the value itself, not its negation — at the concrete input
below the scan stores `lt/2`, which is positive. -/
theorem shan_psi_candidate3_unnegated :
    (∀ g l1 l2 k a b lt dL dI m : ℚ,
      ∃ cand, (psiCandidates g l1 l2 k a b lt dL dI m).getD 2 ⟨false, 0, 0⟩ =
          cand ∧
        cand.value = (g * dL + l2 * dI * m - l1 * k) / (g + l2) ∧
        (cand.feasible = true ↔ 0 ≤ cand.value ∧ cand.value ≤ lt)) ∧
    psiSelect 2 (1/10) 15 psiK psiA psiB psiLt
      ((17 * (psiLt/2) + (1/10) * psiK) / 2) 0 500 = psiLt / 2 ∧
    0 < psiLt / 2 := by
  refine ⟨fun g l1 l2 k a b lt dL dI m => ⟨_, rfl, rfl, ?_⟩, ?_, by
    norm_num [psiLt]⟩
  · simp [psiCandidates, decide_eq_true_eq]
  · norm_num [psiSelect, psiCandidates, psiStep, psiK, psiA, psiB, psiLt,
      abs_of_pos]

lemma loopS_inv {σ : Type} (P : σ → Prop) (n : ℕ) (body : ℕ → σ → σ) (s : σ)
    (h : ∀ i, i < n → ∀ t, P t → P (body i t)) (h0 : P s) :
    P (loopS n body s) := by
  induction n with
  | zero => exact h0
  | succ n ih =>
    exact h n (Nat.lt_succ_self n) _
      (ih (fun i hi t ht => h i (Nat.lt_succ_of_lt hi) t ht))

lemma upd_ne (g : Grid) (x y v : _) (p q : ℤ) (h : ¬(p = x ∧ q = y)) :
    upd g x y v p q = g p q := if_neg h

lemma copyRow_ne (g : Grid) (dstX dstY srcX srcY : ℤ) (len : ℕ) (p q : ℤ)
    (h : ¬(q = dstY ∧ dstX ≤ p ∧ p < dstX + len)) :
    copyRow g dstX dstY srcX srcY len p q = g p q := if_neg h

lemma three_alpha_le_xpad (w h : ℕ) : 3 * alphaOf w h ≤ xpadOf w h := by
  rw [xpadOf_eq_max]
  omega

lemma three_alpha_le_ypad (w h : ℕ) : 3 * alphaOf w h ≤ ypadOf w h := by
  rw [ypadOf_eq_max]
  omega

lemma blurRow_untouched (wing center : ℚ) (y : ℤ) (xp W : ℕ) (g : Grid)
    (p q : ℤ) (h : q ≠ y) : blurRow wing center y xp W g p q = g p q := by
  unfold blurRow
  refine loopS_inv (fun st : Grid × ℚ => st.1 p q = g p q) _ _ _ ?_ rfl
  intro j _ t ht
  show upd t.1 _ _ _ p q = g p q
  rw [upd_ne _ _ _ _ _ _ (fun hc => h hc.2), ht]

lemma blurCol_untouched (wing center : ℚ) (x : ℤ) (n : ℕ) (g : Grid)
    (p q : ℤ) (h : p ≠ x) : blurCol wing center x n g p q = g p q := by
  unfold blurCol
  refine loopS_inv (fun st : Grid × ℚ => st.1 p q = g p q) _ _ _ ?_ rfl
  intro j _ t ht
  show upd t.1 _ _ _ p q = g p q
  rw [upd_ne _ _ _ _ _ _ (fun hc => h hc.1), ht]

lemma fillRowInterp_untouched (W H : ℕ) (i : ℕ) (g : Grid) (p q : ℤ)
    (h : q ≠ (alphaOf W H : ℤ) + i) : fillRowInterp W H i g p q = g p q := by
  unfold fillRowInterp
  exact if_neg (fun hc => h hc.1)

lemma fillColInterp_untouched (W H : ℕ) (i : ℕ) (g : Grid) (p q : ℤ)
    (h : p ≠ (alphaOf W H : ℤ) + i) : fillColInterp W H i g p q = g p q := by
  unfold fillColInterp
  exact if_neg (fun hc => h hc.1)

lemma padTop_interior (W H : ℕ) (g : Grid) (p q : ℤ)
    (hq : (ypadOf W H : ℤ) ≤ q) : padTop W H g p q = g p q := by
  have h3 := three_alpha_le_ypad W H
  unfold padTop
  refine loopS_inv (fun t : Grid => t p q = g p q) _ _ _ ?_ rfl
  intro i hi t ht
  unfold padTopBody
  rw [copyRow_ne _ _ _ _ _ _ _ _ (by rintro ⟨h1, -, -⟩; omega),
    copyRow_ne _ _ _ _ _ _ _ _ (by rintro ⟨h1, -, -⟩; omega), ht]

lemma padRowFill_interior (W H : ℕ) (g : Grid) (p q : ℤ)
    (hq : (ypadOf W H : ℤ) ≤ q) : padRowFill W H g p q = g p q := by
  have h3 := three_alpha_le_ypad W H
  unfold padRowFill
  refine loopS_inv (fun t : Grid => t p q = g p q) _ _ _ ?_ rfl
  intro i hi t ht
  unfold padRowFillBody
  rw [blurRow_untouched _ _ _ _ _ _ _ _ (by omega),
    fillRowInterp_untouched _ _ _ _ _ _ (by omega), ht]

lemma padLeft_interior (W H : ℕ) (g : Grid) (p q : ℤ)
    (hp : (xpadOf W H : ℤ) ≤ p) : padLeft W H g p q = g p q := by
  have h3 := three_alpha_le_xpad W H
  unfold padLeft
  refine loopS_inv (fun t : Grid => t p q = g p q) _ _ _ ?_ rfl
  intro y2 _ t ht
  refine loopS_inv (fun t2 : Grid => t2 p q = g p q) _ _ _ ?_ ht
  intro xi hxi t2 ht2
  unfold padLeftBody
  rw [upd_ne _ _ _ _ _ _ (by rintro ⟨h1, -⟩; omega),
    upd_ne _ _ _ _ _ _ (by rintro ⟨h1, -⟩; omega), ht2]

lemma padColFillLoop_interior (W H : ℕ) (g : Grid) (p q : ℤ)
    (hp : (xpadOf W H : ℤ) ≤ p) :
    loopS (xpadOf W H - alphaOf W H - alphaOf W H) (padColFillBody W H) g p q =
      g p q := by
  have h3 := three_alpha_le_xpad W H
  refine loopS_inv (fun t : Grid => t p q = g p q) _ _ _ ?_ rfl
  intro i hi t ht
  unfold padColFillBody
  rw [blurCol_untouched _ _ _ _ _ _ _ (by omega),
    fillColInterp_untouched _ _ _ _ _ _ (by omega), ht]

lemma padRight_interior (W H : ℕ) (g : Grid) (p q : ℤ)
    (hp : p < (W : ℤ) + xpadOf W H) : padRight W H g p q = g p q := by
  unfold padRight
  refine loopS_inv (fun t : Grid => t p q = g p q) _ _ _ ?_ rfl
  intro y2 _ t ht
  rw [copyRow_ne _ _ _ _ _ _ _ _ (by rintro ⟨-, h2, -⟩; omega), ht]

lemma padBottomAndSides_interior (W H : ℕ) (g : Grid) (p q : ℤ)
    (hp1 : (xpadOf W H : ℤ) ≤ p) (hp2 : p < (xpadOf W H : ℤ) + W)
    (hq2 : q < (ypadOf W H : ℤ) + H) :
    padBottomAndSides W H g p q = g p q := by
  unfold padBottomAndSides
  refine loopS_inv (fun t : Grid => t p q = g p q) _ _ _ ?_ rfl
  intro yb _ t ht
  unfold padBottomBody
  rw [padRight_interior _ _ _ _ _ (by omega),
    padColFillLoop_interior _ _ _ _ _ (by omega),
    padLeft_interior _ _ _ _ _ (by omega),
    copyRow_ne _ _ _ _ _ _ _ _ (by rintro ⟨h1, -, -⟩; omega), ht]

/-- C7: applying the boundary-padding extrapolator and then cropping the
result back to the original image's offset and extent reproduces the
original image's interior samples exactly — every write of the padding
passes lands in the synthesized border or margin regions, never on a
pixel of the embedded original interior. -/
theorem padding_round_trip (W H : ℕ) (B oob : Grid) (p q : ℤ)
    (hp0 : 0 ≤ p) (hpW : p < (W : ℤ)) (hq0 : 0 ≤ q) (hqH : q < (H : ℤ)) :
    paddingRoundTrip W H B oob p q = B p q := by
  unfold paddingRoundTrip applyPaddingResult applyPaddingGrid
  have hx : p + ((xpadOf W H - xpadOf W H / 2 : ℕ) : ℤ) + ((xpadOf W H / 2 : ℕ) : ℤ) =
      p + (xpadOf W H : ℤ) := by omega
  have hy : q + ((ypadOf W H - ypadOf W H / 2 : ℕ) : ℤ) + ((ypadOf W H / 2 : ℕ) : ℤ) =
      q + (ypadOf W H : ℤ) := by omega
  rw [hx, hy]
  rw [padBottomAndSides_interior _ _ _ _ _ (by omega) (by omega) (by omega),
    padRowFill_interior _ _ _ _ _ (by omega),
    padTop_interior _ _ _ _ _ (by omega)]
  unfold padInit
  rw [if_pos ⟨by omega, by omega, by omega, by omega⟩]
  congr 1 <;> omega

/-- Witness for C7 at a concrete 4×5 image and interior pixel (2, 3). -/
theorem padding_round_trip_witness :
    (0 : ℤ) ≤ 2 ∧ (2 : ℤ) < (4 : ℕ) ∧ (0 : ℤ) ≤ 3 ∧ (3 : ℤ) < (5 : ℕ) ∧
    paddingRoundTrip 4 5 (fun x y => (x + 10 * y : ℤ)) (fun _ _ => 37) 2 3 =
      (fun x y => ((x + 10 * y : ℤ) : ℚ)) 2 3 :=
  ⟨by norm_num, by norm_num, by norm_num, by norm_num,
    padding_round_trip 4 5 _ _ 2 3 (by norm_num) (by norm_num) (by norm_num)
      (by norm_num)⟩

/-- Witness for C10 at a concrete 3-channel image and 3×5 kernel. -/
theorem shan_output_single_channel_witness :
    (3 : ℕ) % 2 = 1 ∧
    (shanRun ⟨8, 6, 1, 3⟩ ⟨3, 5, 1, 1⟩).toOption.map (fun r => r.2.channels) =
      some 1 :=
  ⟨rfl, (shan_output_single_channel 8 6 3 5 rfl rfl).2.1⟩

end ImageStack
